import Mathlib

/-!
Shallow embedding of `library/doctable_to_facts.py`.

The module reads a `.docx` document, scans its tables, and for every table
whose first-row cell texts contain all caller-supplied `headers`, turns each
data row into a dict keyed by the header-row texts.  The external
`python-docx` layer is modelled as an environment mapping a file name to
`Option (List Table)`: `none` models the `IOError` raised by
`docx.Document`, `some tables` models a successfully opened document's
ordered table sequence.  A cell is modelled by its text (`String`), a row by
its ordered cell texts, a Python dict by an ordered association list with
unique keys (insertion order, later assignment to an existing key updates
the value in place, as CPython dicts do).
-/

namespace DoctableToFacts

/-- A row of a table: the ordered sequence of its cells' texts
(`cell.text for cell in row.cells`). -/
abbrev Row := List String

/-- A table: the ordered sequence of its rows (`table.rows`). -/
abbrev Table := List Row

/-- A Python dict with `String` keys and values: ordered association list
whose keys are kept unique by `dictInsert`. -/
abbrev Dict := List (String × String)

/-- Python dict assignment `d[k] = v`: if `k` is already a key, the value at
its (unique) slot is replaced in place; otherwise `(k, v)` is appended. -/
def dictInsert (d : Dict) (k v : String) : Dict :=
  match d with
  | [] => [(k, v)]
  | p :: ps => if p.1 = k then (k, v) :: ps else p :: dictInsert ps k v

/-- Python `dict(pairs)`: successive assignment of each pair into an
initially empty dict. -/
def dictOfPairs (ps : List (String × String)) : Dict :=
  ps.foldl (fun d p => dictInsert d p.1 p.2) []

/-- Python dict lookup `d[k]` (first — and, by the `dictInsert` invariant,
only — slot whose key is `k`). -/
def dictLookup (k : String) (d : Dict) : Option String :=
  match d with
  | [] => none
  | p :: ps => if p.1 = k then some p.2 else dictLookup k ps

/-- `row_data = dict(zip(keys, text))` from line 106: pair the header texts
with the row's cell texts, truncating at the shorter, and build a dict. -/
def recordOfRow (keys : List String) (row : Row) : Dict :=
  dictOfPairs (keys.zip row)

/-- `set(headers).issubset(keys)` from line 105: every element of `headers`
occurs among `keys`. -/
def issubset (headers keys : List String) : Bool :=
  headers.all (fun h => keys.contains h)

/-- The records contributed by one table (the inner loop of lines 98-107):
row 0 supplies `keys` and is consumed; every later row yields a dict when
the subset test on `keys` passes, and nothing otherwise. -/
def tableRecords (headers : List String) (table : Table) : List Dict :=
  match table with
  | [] => []
  | keys :: dataRows =>
      dataRows.filterMap (fun row =>
        if issubset headers keys then some (recordOfRow keys row) else none)

/-- The outer loop of lines 97-107: tables are scanned in document order and
their records appended, in order, to the single output list. -/
def docRecords (headers : List String) (tables : List Table) : List Dict :=
  tables.foldl (fun acc table => acc ++ tableRecords headers table) []

/-- The environment provided by `python-docx`: `docx.Document input_file`
either raises `IOError` (`none`) or yields the document's tables. -/
abbrev DocxEnv := String → Option (List Table)

/-- The second component of `parse_tables_dict`'s return pair: the error
string of the `IOError` path, or the success payload
`{'ansible_facts': {'table_' + name: records}}`. -/
inductive ParseResponse where
  | errMsg (s : String)
  | facts (tableKey : String) (records : List Dict)
  deriving DecidableEq

/-- The message `main` stores into `result['message']` on the failure path:
on that path the response is always an `errMsg`. -/
def ParseResponse.asMessage : ParseResponse → String
  | .errMsg s => s
  | .facts _ _ => ""

/-- `parse_tables_dict(input_file, table_name, headers)` (lines 84-111),
with the `docx` layer passed explicitly.  Returns `(1, error message)` when
`docx.Document` raises `IOError`, else `(0, facts)`. -/
def parse_tables_dict (docx_Document : DocxEnv)
    (input_file table_name : String) (headers : List String) :
    Nat × ParseResponse :=
  let ansible_table_name := "table_" ++ table_name
  match docx_Document input_file with
  | none => (1, .errMsg ("IOError on input file: " ++ input_file))
  | some docTables => (0, .facts ansible_table_name (docRecords headers docTables))

/-- The outcome of `main` (lines 113-142): `fail_json(msg=...)` for the
missing-library check, `fail_json(**result)` for the `IOError` path (with
`changed=False`, `facts_json` still the initial empty value, and the error
message), or `exit_json(**result)` on success. -/
inductive MainOutcome where
  | failMsg (msg : String)
  | failResult (changed : Bool) (facts_json : Option ParseResponse) (message : String)
  | exitResult (changed : Bool) (facts_json : Option ParseResponse) (message : String)
  deriving DecidableEq

/-- `main()` (lines 113-142): the `HAS_LIB` gate, then the dispatch on the
return code of `parse_tables_dict`. -/
def main (has_lib : Bool) (docx_Document : DocxEnv)
    (src name : String) (headers : List String) : MainOutcome :=
  if has_lib = false then
    MainOutcome.failMsg "Missing required library: python-docx"
  else
    let r := parse_tables_dict docx_Document src name headers
    if r.1 = 1 then MainOutcome.failResult false none r.2.asMessage
    else MainOutcome.exitResult false (some r.2) "Done"

/-- The value paired with the last occurrence of key `k` in `ps`
(the "later column wins" reading of duplicate keys). -/
def lastPaired (k : String) (ps : List (String × String)) : Option String :=
  ps.foldl (fun acc p => if p.1 = k then some p.2 else acc) none

/-! ### Helper lemmas about the embedded operations -/

theorem filterMap_some_comp_eq_map {α β : Type} (f : α → β) (l : List α) :
    l.filterMap (fun a => some (f a)) = l.map f := by
  induction l with
  | nil => rfl
  | cons a l ih => simp [List.filterMap_cons, ih]

theorem tableRecords_eq_if (headers keys : List String) (dataRows : List Row) :
    tableRecords headers (keys :: dataRows)
      = if issubset headers keys then dataRows.map (recordOfRow keys) else [] := by
  by_cases h : issubset headers keys
  · simp [tableRecords, h, filterMap_some_comp_eq_map]
  · simp [tableRecords, h]

theorem foldl_append_tableRecords (headers : List String) (tables : List Table)
    (acc : List Dict) :
    tables.foldl (fun a table => a ++ tableRecords headers table) acc
      = acc ++ tables.foldl (fun a table => a ++ tableRecords headers table) [] := by
  induction tables generalizing acc with
  | nil => simp
  | cons t ts ih =>
      simp only [List.foldl_cons, List.nil_append]
      rw [ih (acc ++ tableRecords headers t), ih (tableRecords headers t),
        List.append_assoc]

theorem docRecords_cons (headers : List String) (t : Table) (ts : List Table) :
    docRecords headers (t :: ts) = tableRecords headers t ++ docRecords headers ts := by
  simp only [docRecords, List.foldl_cons, List.nil_append]
  exact foldl_append_tableRecords headers ts (tableRecords headers t)

theorem docRecords_eq_flatten (headers : List String) (tables : List Table) :
    docRecords headers tables = (tables.map (tableRecords headers)).flatten := by
  induction tables with
  | nil => rfl
  | cons t ts ih => rw [docRecords_cons, ih]; simp

theorem dictLookup_dictInsert (d : Dict) (k k' v : String) :
    dictLookup k (dictInsert d k' v)
      = if k = k' then some v else dictLookup k d := by
  induction d with
  | nil =>
      by_cases h : k = k'
      · simp [dictInsert, dictLookup, h]
      · have h' : ¬ k' = k := fun hh => h hh.symm
        simp [dictInsert, dictLookup, h, h']
  | cons p ps ih =>
      by_cases hp : p.1 = k'
      · by_cases h : k = k'
        · simp [dictInsert, dictLookup, hp, h]
        · have h' : ¬ k' = k := fun hh => h hh.symm
          have hpk : ¬ p.1 = k := hp ▸ h'
          simp [dictInsert, dictLookup, hp, h, h', hpk]
      · by_cases hpk : p.1 = k
        · have h : ¬ k = k' := fun hh => hp (hpk.trans hh)
          simp [dictInsert, dictLookup, hp, hpk, h]
        · simp [dictInsert, dictLookup, hp, hpk, ih]

theorem dictLookup_foldl_dictInsert (ps : List (String × String)) (d : Dict)
    (k : String) :
    dictLookup k (ps.foldl (fun a p => dictInsert a p.1 p.2) d)
      = ps.foldl (fun acc p => if p.1 = k then some p.2 else acc) (dictLookup k d) := by
  induction ps generalizing d with
  | nil => rfl
  | cons p ps ih =>
      simp only [List.foldl_cons, ih, dictLookup_dictInsert]
      by_cases h : p.1 = k
      · simp [h]
      · have h' : ¬ k = p.1 := fun hh => h hh.symm
        simp [h, h']

theorem dictLookup_dictOfPairs (ps : List (String × String)) (k : String) :
    dictLookup k (dictOfPairs ps) = lastPaired k ps := by
  simp [dictOfPairs, lastPaired, dictLookup_foldl_dictInsert, dictLookup]

theorem map_fst_dictInsert (d : Dict) (k v : String) :
    (dictInsert d k v).map Prod.fst
      = if k ∈ d.map Prod.fst then d.map Prod.fst else d.map Prod.fst ++ [k] := by
  induction d with
  | nil => simp [dictInsert]
  | cons p ps ih =>
      simp only [dictInsert]
      by_cases hp : p.1 = k
      · simp [hp]
      · simp only [hp, if_false, List.map_cons, ih]
        have : ¬ k = p.1 := fun h => hp h.symm
        by_cases hm : k ∈ ps.map Prod.fst <;> simp [hm, this]

theorem nodup_map_fst_dictInsert (d : Dict) (k v : String)
    (h : (d.map Prod.fst).Nodup) : ((dictInsert d k v).map Prod.fst).Nodup := by
  rw [map_fst_dictInsert]
  by_cases hm : k ∈ d.map Prod.fst
  · simpa [hm]
  · simpa [hm, List.nodup_append] using h

theorem nodup_map_fst_foldl_dictInsert (ps : List (String × String)) (d : Dict)
    (h : (d.map Prod.fst).Nodup) :
    ((ps.foldl (fun a p => dictInsert a p.1 p.2) d).map Prod.fst).Nodup := by
  induction ps generalizing d with
  | nil => exact h
  | cons p ps ih => exact ih _ (nodup_map_fst_dictInsert d p.1 p.2 h)

theorem nodup_map_fst_dictOfPairs (ps : List (String × String)) :
    ((dictOfPairs ps).map Prod.fst).Nodup :=
  nodup_map_fst_foldl_dictInsert ps [] (by simp)

theorem dictInsert_of_not_mem (d : Dict) (k v : String)
    (h : k ∉ d.map Prod.fst) : dictInsert d k v = d ++ [(k, v)] := by
  induction d with
  | nil => rfl
  | cons p ps ih =>
      simp only [List.map_cons, List.mem_cons, not_or] at h
      have hpk : ¬ p.1 = k := fun hh => h.1 hh.symm
      simp [dictInsert, hpk, ih h.2]

theorem foldl_dictInsert_of_nodup (ps : List (String × String)) (d : Dict)
    (h : (d.map Prod.fst ++ ps.map Prod.fst).Nodup) :
    ps.foldl (fun a p => dictInsert a p.1 p.2) d = d ++ ps := by
  induction ps generalizing d with
  | nil => simp
  | cons p ps ih =>
      have hnot : p.1 ∉ d.map Prod.fst := by
        rw [List.nodup_append] at h
        intro hmem
        exact h.2.2 hmem (by simp)
      have h' : ((d ++ [p]).map Prod.fst ++ ps.map Prod.fst).Nodup := by
        simpa [List.append_assoc] using h
      simp only [List.foldl_cons, dictInsert_of_not_mem d p.1 p.2 hnot]
      rw [ih (d ++ [(p.1, p.2)]) (by simpa using h')]
      simp

theorem dictOfPairs_of_nodup (ps : List (String × String))
    (h : (ps.map Prod.fst).Nodup) : dictOfPairs ps = ps := by
  simpa [dictOfPairs] using foldl_dictInsert_of_nodup ps [] (by simpa using h)

theorem zip_take_right (keys : List String) (row : Row) :
    keys.zip (row.take keys.length) = keys.zip row := by
  induction keys generalizing row with
  | nil => simp
  | cons k ks ih =>
      cases row with
      | nil => simp
      | cons c cs => simp [List.zip_cons_cons, ih]

theorem map_fst_zip_eq_take (keys : List String) (row : Row) :
    (keys.zip row).map Prod.fst = keys.take row.length := by
  induction keys generalizing row with
  | nil => simp
  | cons k ks ih =>
      cases row with
      | nil => simp
      | cons c cs => simp [List.zip_cons_cons, ih]

theorem issubset_iff (headers keys : List String) :
    issubset headers keys = true ↔ ∀ h ∈ headers, h ∈ keys := by
  simp [issubset, List.all_eq_true, List.elem_iff]

/-! ### Claim theorems -/

/-- C1: a table's data rows contribute records exactly when the caller's
header set is a subset of the first-row cell texts (so a strict superset
header row still selects the table and a header row missing some element
contributes nothing), `issubset` being precisely the subset test, and a
table's contribution is prepended to that of the later tables, so
processing continues past a non-matching table. -/
theorem C1_subset_selects_table (headers keys : List String) (dataRows : List Row)
    (tables : List Table) :
    tableRecords headers (keys :: dataRows)
        = (if issubset headers keys then dataRows.map (recordOfRow keys) else [])
      ∧ docRecords headers ((keys :: dataRows) :: tables)
        = tableRecords headers (keys :: dataRows) ++ docRecords headers tables
      ∧ (issubset headers keys = true ↔ ∀ h ∈ headers, h ∈ keys) :=
  ⟨tableRecords_eq_if headers keys dataRows,
   docRecords_cons headers (keys :: dataRows) tables,
   issubset_iff headers keys⟩

/-- C1 witness: a header row `["A", "B", "C"]` strictly containing
`headers = ["B", "A"]` selects the table, and a non-matching first table
does not stop the second one. -/
theorem C1_subset_selects_table_witness :
    tableRecords ["B", "A"] [["A", "B", "C"], ["1", "2", "3"]]
        = [recordOfRow ["A", "B", "C"] ["1", "2", "3"]]
      ∧ docRecords ["B", "A"] [[["X"], ["d"]], [["A", "B", "C"], ["1", "2", "3"]]]
        = tableRecords ["B", "A"] [["X"], ["d"]]
            ++ docRecords ["B", "A"] [[["A", "B", "C"], ["1", "2", "3"]]] := by
  have h := C1_subset_selects_table ["B", "A"] ["X"] [["d"]]
    [[["A", "B", "C"], ["1", "2", "3"]]]
  exact ⟨by decide, h.2.1⟩

/-- C2: when the docx layer signals `IOError` on the input file,
`parse_tables_dict` returns code 1 with a message carrying the input
identifier and no facts payload, and `main` reports a failure with
`changed = false`, an untouched (empty) `facts_json`, and that message:
no partial `ResultSet` is produced. -/
theorem C2_ioerror_fails_early (docx_Document : DocxEnv)
    (src name : String) (headers : List String)
    (h : docx_Document src = none) :
    parse_tables_dict docx_Document src name headers
        = (1, ParseResponse.errMsg ("IOError on input file: " ++ src))
      ∧ main true docx_Document src name headers
        = MainOutcome.failResult false none ("IOError on input file: " ++ src) := by
  refine ⟨?_, ?_⟩
  · simp [parse_tables_dict, h]
  · simp [main, parse_tables_dict, h, ParseResponse.asMessage]

/-- C2 witness: an environment on which every open raises `IOError`. -/
theorem C2_ioerror_fails_early_witness :
    parse_tables_dict (fun _ => none) "missing.docx" "routes" ["Destination"]
        = (1, ParseResponse.errMsg ("IOError on input file: " ++ "missing.docx"))
      ∧ main true (fun _ => none) "missing.docx" "routes" ["Destination"]
        = MainOutcome.failResult false none ("IOError on input file: " ++ "missing.docx") :=
  C2_ioerror_fails_early (fun _ => none) "missing.docx" "routes" ["Destination"] rfl

/-- C3: when a table's first-row cell texts, as a set, exactly equal the
caller's header set, the table contributes one record per data row:
its record count is the table's row count minus one. -/
theorem C3_exact_match_record_count (headers keys : List String)
    (dataRows : List Row) (h : ∀ x, x ∈ keys ↔ x ∈ headers) :
    (tableRecords headers (keys :: dataRows)).length
      = (keys :: dataRows).length - 1 := by
  have hsub : issubset headers keys = true :=
    (issubset_iff headers keys).mpr (fun x hx => (h x).mpr hx)
  simp [tableRecords_eq_if, hsub]

/-- C3 witness: a header row equal (as a set) to the header set, with two
data rows, yields exactly `3 - 1 = 2` records. -/
theorem C3_exact_match_record_count_witness :
    (tableRecords ["NextHop", "Destination"]
        [["Destination", "NextHop"],
         ["10.0.0.0/8", "192.168.1.1"],
         ["0.0.0.0/0", "192.168.1.254"]]).length
      = ([["Destination", "NextHop"],
          ["10.0.0.0/8", "192.168.1.1"],
          ["0.0.0.0/0", "192.168.1.254"]] : Table).length - 1 :=
  C3_exact_match_record_count ["NextHop", "Destination"] ["Destination", "NextHop"]
    [["10.0.0.0/8", "192.168.1.1"], ["0.0.0.0/0", "192.168.1.254"]]
    (by intro x; simp [List.mem_cons, or_comm])

/-- C4: for a header row with pairwise distinct cell texts, a data row's
record is exactly `zip keys row`: pairing stops at the shorter side, cells
beyond the keys are ignored (the record equals the one for the truncated
row), the record's keys are just those the row could pair, and its size is
the minimum of the two lengths — no padding, no error. -/
theorem C4_ragged_rows_truncate (keys : List String) (row : Row)
    (h : keys.Nodup) :
    recordOfRow keys row = keys.zip row
      ∧ recordOfRow keys row = recordOfRow keys (row.take keys.length)
      ∧ (recordOfRow keys row).map Prod.fst = keys.take row.length
      ∧ (recordOfRow keys row).length = min keys.length row.length := by
  have hz : ((keys.zip row).map Prod.fst).Nodup := by
    rw [map_fst_zip_eq_take]
    exact h.sublist (List.take_sublist row.length keys)
  have h1 : recordOfRow keys row = keys.zip row := dictOfPairs_of_nodup _ hz
  refine ⟨h1, ?_, ?_, ?_⟩
  · simp [recordOfRow, zip_take_right]
  · rw [h1, map_fst_zip_eq_take]
  · rw [h1, List.length_zip]

/-- C4 witness: three distinct keys against a one-cell row pair only the
first key; no padding occurs. -/
theorem C4_ragged_rows_truncate_witness :
    recordOfRow ["a", "b", "c"] ["1"] = (["a", "b", "c"].zip ["1"])
      ∧ recordOfRow ["a", "b", "c"] ["1"]
          = recordOfRow ["a", "b", "c"] (["1"].take (["a", "b", "c"] : List String).length)
      ∧ (recordOfRow ["a", "b", "c"] ["1"]).map Prod.fst
          = ["a", "b", "c"].take (["1"] : Row).length
      ∧ (recordOfRow ["a", "b", "c"] ["1"]).length
          = min (["a", "b", "c"] : List String).length (["1"] : Row).length :=
  C4_ragged_rows_truncate ["a", "b", "c"] ["1"] (by decide)

/-- C5: an empty header set passes the subset test against every header
row, so every table is selected and each contributes one record per data
row; a zero-row table contributes nothing, and the run still returns
success code 0. -/
theorem C5_empty_headers_select_all (keys : List String) (dataRows : List Row)
    (docTables : List Table) (src name : String) :
    issubset [] keys = true
      ∧ tableRecords [] (keys :: dataRows) = dataRows.map (recordOfRow keys)
      ∧ tableRecords [] ([] : Table) = []
      ∧ (parse_tables_dict (fun _ => some docTables) src name []).1 = 0 := by
  refine ⟨rfl, ?_, rfl, rfl⟩
  simp [tableRecords_eq_if, issubset]

/-- C6: every record a table contributes arises from one of its data rows
(rows after the first), and there are at most as many records as data
rows: the first row is consumed as the header row, supplies the keys, and
is never itself converted to a record, whether or not it matches. -/
theorem C6_header_row_never_output (headers keys : List String)
    (dataRows : List Row) :
    (∀ r ∈ tableRecords headers (keys :: dataRows),
        ∃ row ∈ dataRows, r = recordOfRow keys row)
      ∧ (tableRecords headers (keys :: dataRows)).length ≤ dataRows.length := by
  rw [tableRecords_eq_if]
  by_cases h : issubset headers keys
  · rw [if_pos h]
    refine ⟨fun r hr => ?_, by simp⟩
    rcases List.mem_map.mp hr with ⟨row, hrow, rfl⟩
    exact ⟨row, hrow, rfl⟩
  · rw [if_neg h]
    exact ⟨fun r hr => absurd hr (List.not_mem_nil r), by simp⟩

/-- C6 witness: the only record of a matching two-row table comes from its
single data row, not from the header row. -/
theorem C6_header_row_never_output_witness :
    ∃ row ∈ [["v"]], recordOfRow ["h"] ["v"] = recordOfRow ["h"] row :=
  (C6_header_row_never_output ["h"] ["h"] [["v"]]).1
    (recordOfRow ["h"] ["v"]) (by decide)

/-- C7: a record's keys are pairwise distinct, and looking up any key in a
record returns the cell text of the last column paired with that key: with
duplicate header texts the later column silently wins. -/
theorem C7_duplicate_header_later_wins (keys : List String) (row : Row)
    (k : String) :
    ((recordOfRow keys row).map Prod.fst).Nodup
      ∧ dictLookup k (recordOfRow keys row) = lastPaired k (keys.zip row) :=
  ⟨nodup_map_fst_dictOfPairs (keys.zip row), dictLookup_dictOfPairs (keys.zip row) k⟩

/-- C8: with the docx library absent, `main` fails with the
missing-dependency message, whatever the environment and the three
parameters are — the outcome does not depend on them. -/
theorem C8_missing_library_fails (docx_Document : DocxEnv)
    (src name : String) (headers : List String) :
    main false docx_Document src name headers
      = MainOutcome.failMsg "Missing required library: python-docx" := rfl

/-- C9: `parse_tables_dict` is a pure function of its inputs: two
invocations on the same inputs are structurally identical, and the result
depends on the docx environment only through the document opened at `src`
(no other state is consulted and none is mutated). -/
theorem C9_extract_deterministic (d d' : DocxEnv) (src name : String)
    (headers : List String) (h : d src = d' src) :
    parse_tables_dict d src name headers = parse_tables_dict d src name headers
      ∧ parse_tables_dict d src name headers
        = parse_tables_dict d' src name headers := by
  refine ⟨rfl, ?_⟩
  simp [parse_tables_dict, h]

/-- C9 witness: two environments agreeing at the opened path yield
structurally identical results. -/
theorem C9_extract_deterministic_witness :
    parse_tables_dict (fun _ => some [[["a"], ["1"]]]) "f.docx" "t" ["a"]
        = parse_tables_dict (fun _ => some [[["a"], ["1"]]]) "f.docx" "t" ["a"]
      ∧ parse_tables_dict (fun _ => some [[["a"], ["1"]]]) "f.docx" "t" ["a"]
        = parse_tables_dict
            (fun s => if s = "f.docx" then some [[["a"], ["1"]]] else none)
            "f.docx" "t" ["a"] :=
  C9_extract_deterministic (fun _ => some [[["a"], ["1"]]])
    (fun s => if s = "f.docx" then some [[["a"], ["1"]]] else none)
    "f.docx" "t" ["a"] (by simp)

/-- C10: the output sequence is in document order: the whole record list is
the concatenation, in table order, of the per-table record lists, and a
selected table's records follow the order of its data rows. -/
theorem C10_records_in_document_order (headers : List String)
    (docTables : List Table) (keys : List String) (dataRows : List Row) :
    docRecords headers docTables = (docTables.map (tableRecords headers)).flatten
      ∧ (issubset headers keys = true →
          tableRecords headers (keys :: dataRows) = dataRows.map (recordOfRow keys)) := by
  refine ⟨docRecords_eq_flatten headers docTables, fun h => ?_⟩
  simp [tableRecords_eq_if, h]

/-- C10 witness: two tables' records concatenate in order, and within a
table the records follow the data-row order. -/
theorem C10_records_in_document_order_witness :
    docRecords ["k"] [[["k"], ["1"], ["2"]], [["k"], ["3"]]]
        = ([[["k"], ["1"], ["2"]], [["k"], ["3"]]].map (tableRecords ["k"])).flatten
      ∧ tableRecords ["k"] [["k"], ["1"], ["2"]]
        = [["1"], ["2"]].map (recordOfRow ["k"]) :=
  ⟨(C10_records_in_document_order ["k"] [[["k"], ["1"], ["2"]], [["k"], ["3"]]]
      ["k"] [["1"], ["2"]]).1,
   (C10_records_in_document_order ["k"] [[["k"], ["1"], ["2"]], [["k"], ["3"]]]
      ["k"] [["1"], ["2"]]).2 (by decide)⟩

end DoctableToFacts
